import Mathlib

/-!
Shallow embedding of the KeyVault core (src/library/widgets.py):
the Tree Projection held in the shared `Treeview`, the mirror cache,
the shared-state aliasing mechanism, and the three account operations
of `ToolboxFrame` (fetch / save / delete), together with proofs of the
specified properties.
-/

namespace KeyVault

/-- Lowercasing of a label, modelling Python's `str.lower()`
(character-wise lowercase). -/
def lower (s : String) : String := String.mk (s.data.map Char.toLower)

/-- Case-insensitive label comparison, as in the source's
`value.lower() == name.lower()` checks (`get_service_id`,
`get_username_id`, `del_username`). -/
def ciEq (a b : String) : Bool := lower a == lower b

/-- Tree Projection: the ordered forest stored in the shared `Treeview` —
service nodes in insertion order, each with its username children in
insertion order.  A node is its label paired with its children's labels. -/
abbrev Tree := List (String × List String)

/-- Embeds `SharedState.add_username`: scan for the first service node whose
label matches case-insensitively (`get_service_id`); if none, a new service
node is appended at the end and the username inserted under it; otherwise
the username is appended to that node unless already present
case-insensitively (`get_username_id`). -/
def add_username : Tree → String → String → Tree
  | [], s, u => [(s, [u])]
  | n :: t, s, u =>
    if ciEq s n.1 then
      (if n.2.any (fun x => ciEq u x) then n else (n.1, n.2 ++ [u])) :: t
    else
      n :: add_username t s u

/-- Embeds `SharedState.del_username`: locate the first case-insensitively
matching service node; delete every child matching the username
case-insensitively; if the node is left with zero children, delete the
service node as well.  No-op when the service is not found. -/
def del_username : Tree → String → String → Tree
  | [], _, _ => []
  | n :: t, s, u =>
    if ciEq s n.1 then
      let rest := n.2.filter (fun x => !(ciEq u x))
      if rest.isEmpty then t else (n.1, rest) :: t
    else
      n :: del_username t s u

/-- Python `dict` insertion as performed by the `tree.update` call of
`get_tree`: an existing key keeps its position and gets the new value,
a new key is appended. -/
def dictInsert (d : Tree) (k : String) (v : List String) : Tree :=
  if d.any (fun p => p.1 == k) then
    d.map (fun p => if p.1 == k then (p.1, v) else p)
  else
    d ++ [(k, v)]

/-- Embeds `SharedState.get_tree` (export): walk the service nodes in order
and build the Mirror Document mapping each service label to the ordered
list of its children's labels. -/
def get_tree (t : Tree) : Tree :=
  t.foldl (fun d n => dictInsert d n.1 n.2) []

/-- Adds every username of a list under one service, in order
(the inner loop of `set_tree`). -/
def addUsers (t : Tree) (s : String) (us : List String) : Tree :=
  us.foldl (fun a u => add_username a s u) t

/-- Embeds `SharedState.set_tree` (import): for each `(service, usernames)`
pair in document order, `add_username` for every username in list order. -/
def set_tree (t : Tree) (cache : Tree) : Tree :=
  cache.foldl (fun a p => addUsers a p.1 p.2) t

/-- Membership of a `(service, username)` entry in the Tree Projection,
up to the case-insensitive label comparison the source uses. -/
def memTree (t : Tree) (s u : String) : Bool :=
  t.any (fun n => ciEq s n.1 && n.2.any (fun x => ciEq u x))

/-- Service labels are case-insensitively unique at the top level. -/
def servicesCiUnique (t : Tree) : Prop :=
  t.Pairwise (fun a b => lower a.1 ≠ lower b.1)

/-- Pairwise case-insensitive distinctness of a list of labels. -/
def ciNodup (l : List String) : Prop :=
  l.Pairwise (fun a b => lower a ≠ lower b)

/-- Username labels are case-insensitively unique within each service. -/
def usersCiUnique (t : Tree) : Prop :=
  ∀ n ∈ t, ciNodup n.2

/-- No service node has zero children. -/
def noEmptyService (t : Tree) : Prop :=
  ∀ n ∈ t, n.2 ≠ []

/-- The data-model invariants of the Tree Projection. -/
def WF (t : Tree) : Prop :=
  servicesCiUnique t ∧ usersCiUnique t ∧ noEmptyService t

instance (t : Tree) : Decidable (servicesCiUnique t) :=
  inferInstanceAs
    (Decidable (t.Pairwise (fun (a b : String × List String) => lower a.1 ≠ lower b.1)))

instance (l : List String) : Decidable (ciNodup l) :=
  inferInstanceAs (Decidable (l.Pairwise (fun (a b : String) => lower a ≠ lower b)))

instance (t : Tree) : Decidable (usersCiUnique t) :=
  inferInstanceAs (Decidable (∀ n ∈ t, ciNodup n.2))

instance (t : Tree) : Decidable (noEmptyService t) :=
  inferInstanceAs (Decidable (∀ n ∈ t, n.2 ≠ []))

instance (t : Tree) : Decidable (WF t) :=
  inferInstanceAs (Decidable (servicesCiUnique t ∧ usersCiUnique t ∧ noEmptyService t))

/-- Secret Store Gateway contents: a finite map from `(service, username)`
keys to secrets.  Models the external credential vault consumed through
`keyring.get_password` / `set_password` / `delete_password`
(spec interface: `get -> secret | absent`, `set -> ok`,
`delete -> ok | fails with SecretNotFound`). -/
abbrev Keyring := List ((String × String) × String)

/-- Gateway `get(service, username) -> secret | absent`
(`keyring.get_password`, which returns `None` when absent). -/
def krGet : Keyring → String → String → Option String
  | [], _, _ => none
  | e :: kr, s, u =>
    if e.1.1 == s && e.1.2 == u then some e.2 else krGet kr s u

/-- Gateway `set(service, username, secret) -> ok`
(`keyring.set_password`, overwrite semantics). -/
def krSet : Keyring → String → String → String → Keyring
  | [], s, u, p => [((s, u), p)]
  | e :: kr, s, u, p =>
    if e.1.1 == s && e.1.2 == u then (e.1, p) :: kr else e :: krSet kr s u p

/-- Gateway `delete(service, username) -> ok | fails with SecretNotFound`
(`keyring.delete_password`, which raises `PasswordDeleteError` when the
secret is absent — modelled as `none`). -/
def krDel : Keyring → String → String → Option Keyring
  | [], _, _ => none
  | e :: kr, s, u =>
    if e.1.1 == s && e.1.2 == u then some kr
    else (krDel kr s u).map (fun kr2 => e :: kr2)

/-- Shared Application State together with its external collaborators:
the four `StringVar` fields of `Variables` (`service`, `username`,
`password`, `notification`), the clipboard text, the shared `Treeview`
contents, the Secret Store Gateway contents, and the contents of the
mirror cache file (`none` when the file does not exist). -/
structure AppState where
  service : String
  username : String
  password : String
  notification : String
  clipboard : String
  tree : Tree
  keyring : Keyring
  mirror : Option Tree
deriving DecidableEq

/-- Embeds `SharedState.show_info`: a no-op for an empty message,
otherwise sets the notification to the tagged message. -/
def show_info (st : AppState) (msg : String) : AppState :=
  if msg.length > 0 then { st with notification := "[INFO]: " ++ msg } else st

/-- Embeds `SharedState.show_warning`. -/
def show_warning (st : AppState) (msg : String) : AppState :=
  if msg.length > 0 then { st with notification := "[WARNING]: " ++ msg } else st

/-- Embeds `SharedState.show_error`. -/
def show_error (st : AppState) (msg : String) : AppState :=
  if msg.length > 0 then { st with notification := "[ERROR]: " ++ msg } else st

/-- Embeds `ToolboxFrame.add_account`: `add_username`, then overwrite the
cache file with the full `get_tree()` snapshot (`set_cache`). -/
def add_account (st : AppState) (s u : String) : AppState :=
  let t := add_username st.tree s u
  { st with tree := t, mirror := some (get_tree t) }

/-- Embeds `ToolboxFrame.del_account`: `del_username`, then overwrite the
cache file with the full `get_tree()` snapshot (`set_cache`). -/
def del_account (st : AppState) (s u : String) : AppState :=
  let t := del_username st.tree s u
  { st with tree := t, mirror := some (get_tree t) }

/-- Embeds `ToolboxFrame.get_password` (the Fetch operation).  Note that
`del self.password` runs before the precondition check. -/
def get_password (st : AppState) : AppState :=
  let st := { st with password := "" }
  if st.service.length > 0 ∧ st.username.length > 0 then
    match krGet st.keyring st.service st.username with
    | some v =>
      let st := { st with password := v, clipboard := v }
      let st := add_account st st.service st.username
      show_info st "Password retrieved from keyring."
    | none =>
      let st := del_account st st.service st.username
      show_warning st "Password not found!"
  else
    show_warning st "Service and username cannot be empty!"

/-- Embeds `ToolboxFrame.set_password` (the Save operation). -/
def set_password (st : AppState) : AppState :=
  if st.service.length > 0 ∧ st.username.length > 0 ∧ st.password.length > 0 then
    let st := { st with keyring := krSet st.keyring st.service st.username st.password }
    let st := add_account st st.service st.username
    let st := { st with clipboard := st.password }
    show_info st "Password saved to keyring."
  else
    show_warning st "Service, username and password cannot be empty!"

/-- Embeds `ToolboxFrame.del_password` (the Delete operation): the gateway
delete either succeeds (info message) or raises `PasswordDeleteError`
(warning message); the `finally` block then runs `del_account` and clears
`service`, `username` and `password` unconditionally. -/
def del_password (st : AppState) : AppState :=
  if st.service.length > 0 ∧ st.username.length > 0 then
    let st1 :=
      match krDel st.keyring st.service st.username with
      | some kr => show_info { st with keyring := kr } "Password deleted from keyring."
      | none => show_warning st "Password not found in keyring!"
    let st2 := del_account st1 st1.service st1.username
    { st2 with service := "", username := "", password := "" }
  else
    show_warning st "Service and username cannot be empty!"

/-- Pointwise update of a heap, used by the aliasing model below. -/
def upd {α : Type} (f : Nat → α) (a : Nat) (b : α) : Nat → α :=
  fun x => if x = a then b else f x

/-- Python attribute-dictionary assignment: an existing key keeps its
position and gets the new value, a new key is appended at the end. -/
def dictSet {V : Type} : List (String × V) → String → V → List (String × V)
  | [], k, v => [(k, v)]
  | p :: d, k, v => if p.1 == k then (p.1, v) :: d else p :: dictSet d k v

/-- Python attribute-dictionary lookup. -/
def dictGet {V : Type} : List (String × V) → String → Option V
  | [], _ => none
  | p :: d, k => if p.1 == k then some p.2 else dictGet d k

/-- Python `dict.update`: merge every entry of the second dictionary into
the first, in iteration order. -/
def dictMerge {V : Type} (d e : List (String × V)) : List (String × V) :=
  e.foldl (fun a p => dictSet a p.1 p.2) d

/-- Heap model for the `SharedState` aliasing mechanism: every holder
object's `__dict__` lives at an address of a heap of attribute
dictionaries, the class-level `__shared__` dictionary lives at the fixed
address `shared`, and `ptr h` is the address holder `h`'s `__dict__`
currently refers to. -/
structure PyState (V : Type) where
  heap : Nat → List (String × V)
  shared : Nat
  ptr : Nat → Nat

/-- Embeds `SharedState.__init__`:
`self.__shared__.update(self.__dict__)` merges the holder's own fields
into the class-level dictionary, and `self.__dict__ = self.__shared__`
rebinds the holder's attribute dictionary to the shared one, so every
later attribute access through this holder lands in the shared
dictionary. -/
def initHolder {V : Type} (σ : PyState V) (h : Nat) : PyState V :=
  { σ with
    heap := upd σ.heap σ.shared (dictMerge (σ.heap σ.shared) (σ.heap (σ.ptr h))),
    ptr := upd σ.ptr h σ.shared }

/-- Attribute assignment through a holder: writes into the dictionary the
holder's `__dict__` currently refers to. -/
def writeAttr {V : Type} (σ : PyState V) (h : Nat) (k : String) (v : V) : PyState V :=
  { σ with heap := upd σ.heap (σ.ptr h) (dictSet (σ.heap (σ.ptr h)) k v) }

/-- Attribute read through a holder. -/
def readAttr {V : Type} (σ : PyState V) (h : Nat) (k : String) : Option V :=
  dictGet (σ.heap (σ.ptr h)) k

lemma ciEq_refl (s : String) : ciEq s s = true := by
  simp [ciEq]

lemma ciEq_iff {a b : String} : ciEq a b = true ↔ lower a = lower b := by
  simp [ciEq]

lemma ciEq_false_iff {a b : String} : ciEq a b = false ↔ lower a ≠ lower b := by
  simp [ciEq]

lemma krGet_krSet (kr : Keyring) (s u p : String) :
    krGet (krSet kr s u p) s u = some p := by
  induction kr with
  | nil => simp [krSet, krGet]
  | cons e kr ih =>
    by_cases h : (e.1.1 == s && e.1.2 == u) = true
    · simp [krSet, krGet, h]
    · simp [krSet, krGet, h, ih]

lemma memTree_cons (n : String × List String) (t : Tree) (s u : String) :
    memTree (n :: t) s u
      = ((ciEq s n.1 && n.2.any (fun x => ciEq u x)) || memTree t s u) := by
  simp [memTree]

lemma memTree_add (t : Tree) (s u : String) :
    memTree (add_username t s u) s u = true := by
  induction t with
  | nil => simp [add_username, memTree, ciEq_refl]
  | cons n t ih =>
    by_cases h : ciEq s n.1 = true
    · by_cases h2 : n.2.any (fun x => ciEq u x) = true
      · simp [add_username, h, h2, memTree_cons]
      · simp [add_username, h, h2, memTree_cons, ciEq_refl]
    · simp only [add_username, h, if_false, Bool.false_eq_true, memTree_cons,
        Bool.false_and, Bool.false_or, ih]

lemma memTree_eq_false (t : Tree) (s u : String)
    (h : ∀ n ∈ t, ciEq s n.1 = false) : memTree t s u = false := by
  induction t with
  | nil => rfl
  | cons n t ih =>
    rw [memTree_cons, h n (by simp), ih (fun m hm => h m (by simp [hm]))]
    rfl

lemma memTree_del (t : Tree) (s u : String) (h : servicesCiUnique t) :
    memTree (del_username t s u) s u = false := by
  induction t with
  | nil => rfl
  | cons n t ih =>
    rw [servicesCiUnique, List.pairwise_cons] at h
    by_cases hm : ciEq s n.1 = true
    · have hts : ∀ m ∈ t, ciEq s m.1 = false := by
        intro m hmem
        rw [ciEq_false_iff]
        rw [ciEq_iff] at hm
        intro hc
        exact h.1 m hmem (hm ▸ hc)
      by_cases he : (n.2.filter (fun x => !(ciEq u x))).isEmpty = true
      · simp only [del_username, hm, if_true, he]
        exact memTree_eq_false t s u hts
      · simp only [del_username, hm, if_true, he, Bool.false_eq_true, if_false]
        rw [memTree_cons, memTree_eq_false t s u hts]
        have hany : (n.2.filter (fun x => !(ciEq u x))).any (fun x => ciEq u x) = false := by
          rw [List.any_eq_false]
          intro x hx
          have := (List.mem_filter.mp hx).2
          simp only [Bool.not_eq_true'] at this
          simp [this]
        rw [hany]
        simp
    · simp only [del_username, hm, Bool.false_eq_true, if_false]
      rw [memTree_cons, ih h.2]
      simp only [Bool.not_eq_true] at hm
      rw [hm]
      simp

lemma add_labels (t : Tree) (s u : String) :
    ∀ m ∈ add_username t s u, m.1 ∈ t.map Prod.fst ∨ m.1 = s := by
  induction t with
  | nil =>
    intro m hm
    simp only [add_username, List.mem_singleton] at hm
    right
    rw [hm]
  | cons n t ih =>
    intro m hm
    by_cases h : ciEq s n.1 = true
    · simp only [add_username, h, if_true] at hm
      rcases List.mem_cons.mp hm with hm | hm
      · left
        by_cases h2 : n.2.any (fun x => ciEq u x) = true
        · rw [h2] at hm
          simp only [if_true] at hm
          simp [hm]
        · simp only [h2, Bool.false_eq_true, if_false] at hm
          rw [hm]
          simp
      · left
        simp only [List.map_cons, List.mem_cons]
        right
        exact List.mem_map_of_mem Prod.fst hm
    · simp only [add_username, h, Bool.false_eq_true, if_false] at hm
      rcases List.mem_cons.mp hm with hm | hm
      · left
        rw [hm]
        simp
      · rcases ih m hm with hl | hl
        · left
          simp only [List.map_cons, List.mem_cons]
          right
          exact hl
        · right
          exact hl

lemma del_labels (t : Tree) (s u : String) :
    ∀ m ∈ del_username t s u, m.1 ∈ t.map Prod.fst := by
  induction t with
  | nil => intro m hm; simp [del_username] at hm
  | cons n t ih =>
    intro m hm
    by_cases h : ciEq s n.1 = true
    · simp only [del_username, h, if_true] at hm
      by_cases he : (n.2.filter (fun x => !(ciEq u x))).isEmpty = true
      · rw [he] at hm
        simp only [if_true] at hm
        simp only [List.map_cons, List.mem_cons]
        right
        exact List.mem_map_of_mem Prod.fst hm
      · simp only [he, Bool.false_eq_true, if_false] at hm
        rcases List.mem_cons.mp hm with hm | hm
        · rw [hm]
          simp
        · simp only [List.map_cons, List.mem_cons]
          right
          exact List.mem_map_of_mem Prod.fst hm
    · simp only [del_username, h, Bool.false_eq_true, if_false] at hm
      rcases List.mem_cons.mp hm with hm | hm
      · rw [hm]
        simp
      · simp only [List.map_cons, List.mem_cons]
        right
        exact ih m hm

lemma noEmptyService_add (t : Tree) (s u : String) (h : noEmptyService t) :
    noEmptyService (add_username t s u) := by
  induction t with
  | nil =>
    intro m hm
    simp only [add_username, List.mem_singleton] at hm
    rw [hm]
    simp
  | cons n t ih =>
    intro m hm
    by_cases hc : ciEq s n.1 = true
    · simp only [add_username, hc, if_true] at hm
      rcases List.mem_cons.mp hm with hm | hm
      · by_cases h2 : n.2.any (fun x => ciEq u x) = true
        · rw [h2] at hm
          simp only [if_true] at hm
          rw [hm]
          exact h n (by simp)
        · simp only [h2, Bool.false_eq_true, if_false] at hm
          rw [hm]
          simp
      · exact h m (by simp [hm])
    · simp only [add_username, hc, Bool.false_eq_true, if_false] at hm
      rcases List.mem_cons.mp hm with hm | hm
      · rw [hm]
        exact h n (by simp)
      · exact ih (fun q hq => h q (by simp [hq])) m hm

lemma noEmptyService_del (t : Tree) (s u : String) (h : noEmptyService t) :
    noEmptyService (del_username t s u) := by
  induction t with
  | nil => intro m hm; simp [del_username] at hm
  | cons n t ih =>
    intro m hm
    by_cases hc : ciEq s n.1 = true
    · simp only [del_username, hc, if_true] at hm
      by_cases he : (n.2.filter (fun x => !(ciEq u x))).isEmpty = true
      · rw [he] at hm
        simp only [if_true] at hm
        exact h m (by simp [hm])
      · simp only [he, Bool.false_eq_true, if_false] at hm
        rcases List.mem_cons.mp hm with hm | hm
        · rw [hm]
          simp only [ne_eq]
          intro hcon
          rw [hcon] at he
          simp at he
        · exact h m (by simp [hm])
    · simp only [del_username, hc, Bool.false_eq_true, if_false] at hm
      rcases List.mem_cons.mp hm with hm | hm
      · rw [hm]
        exact h n (by simp)
      · exact ih (fun q hq => h q (by simp [hq])) m hm

lemma servicesCiUnique_add (t : Tree) (s u : String) (h : servicesCiUnique t) :
    servicesCiUnique (add_username t s u) := by
  induction t with
  | nil => simp [add_username, servicesCiUnique]
  | cons n t ih =>
    rw [servicesCiUnique, List.pairwise_cons] at h
    by_cases hc : ciEq s n.1 = true
    · rw [servicesCiUnique]
      simp only [add_username, hc, if_true]
      by_cases h2 : n.2.any (fun x => ciEq u x) = true
      · rw [h2]
        simp only [if_true]
        exact List.pairwise_cons.mpr h
      · simp only [h2, Bool.false_eq_true, if_false]
        rw [List.pairwise_cons]
        exact ⟨fun m hm => h.1 m hm, h.2⟩
    · simp only [add_username, hc, Bool.false_eq_true, if_false]
      rw [servicesCiUnique, List.pairwise_cons]
      constructor
      · intro m hm
        rcases add_labels t s u m hm with hl | hl
        · rcases List.mem_map.mp hl with ⟨m2, hm2, he⟩
          rw [← he]
          exact h.1 m2 hm2
        · rw [hl]
          rw [Bool.not_eq_true, ciEq_false_iff] at hc
          exact fun hcon => hc hcon.symm
      · exact ih h.2

lemma usersCiUnique_add (t : Tree) (s u : String) (h : usersCiUnique t) :
    usersCiUnique (add_username t s u) := by
  induction t with
  | nil =>
    intro m hm
    simp only [add_username, List.mem_singleton] at hm
    rw [hm]
    simp [ciNodup]
  | cons n t ih =>
    intro m hm
    by_cases hc : ciEq s n.1 = true
    · simp only [add_username, hc, if_true] at hm
      rcases List.mem_cons.mp hm with hm | hm
      · by_cases h2 : n.2.any (fun x => ciEq u x) = true
        · rw [h2] at hm
          simp only [if_true] at hm
          rw [hm]
          exact h n (by simp)
        · simp only [h2, Bool.false_eq_true, if_false] at hm
          rw [hm]
          rw [ciNodup, List.pairwise_append]
          refine ⟨h n (by simp), by simp [ciNodup], ?_⟩
          intro a ha b hb
          rw [List.mem_singleton] at hb
          rw [hb]
          rw [Bool.not_eq_true, List.any_eq_false] at h2
          have h3 := h2 a ha
          rw [Bool.not_eq_true, ciEq_false_iff] at h3
          exact fun hcon => h3 hcon.symm
      · exact h m (by simp [hm])
    · simp only [add_username, hc, Bool.false_eq_true, if_false] at hm
      rcases List.mem_cons.mp hm with hm | hm
      · rw [hm]
        exact h n (by simp)
      · exact ih (fun q hq => h q (by simp [hq])) m hm

lemma servicesCiUnique_del (t : Tree) (s u : String) (h : servicesCiUnique t) :
    servicesCiUnique (del_username t s u) := by
  induction t with
  | nil => exact h
  | cons n t ih =>
    rw [servicesCiUnique, List.pairwise_cons] at h
    by_cases hc : ciEq s n.1 = true
    · simp only [del_username, hc, if_true]
      by_cases he : (n.2.filter (fun x => !(ciEq u x))).isEmpty = true
      · rw [he]
        simp only [if_true]
        exact h.2
      · simp only [he, Bool.false_eq_true, if_false]
        rw [servicesCiUnique, List.pairwise_cons]
        exact ⟨fun m hm => h.1 m hm, h.2⟩
    · simp only [del_username, hc, Bool.false_eq_true, if_false]
      rw [servicesCiUnique, List.pairwise_cons]
      constructor
      · intro m hm
        rcases List.mem_map.mp (del_labels t s u m hm) with ⟨m2, hm2, he⟩
        rw [← he]
        exact h.1 m2 hm2
      · exact ih h.2

lemma usersCiUnique_del (t : Tree) (s u : String) (h : usersCiUnique t) :
    usersCiUnique (del_username t s u) := by
  induction t with
  | nil => intro m hm; simp [del_username] at hm
  | cons n t ih =>
    intro m hm
    by_cases hc : ciEq s n.1 = true
    · simp only [del_username, hc, if_true] at hm
      by_cases he : (n.2.filter (fun x => !(ciEq u x))).isEmpty = true
      · rw [he] at hm
        simp only [if_true] at hm
        exact h m (by simp [hm])
      · simp only [he, Bool.false_eq_true, if_false] at hm
        rcases List.mem_cons.mp hm with hm | hm
        · rw [hm]
          exact List.Pairwise.sublist (List.filter_sublist n.2) (h n (by simp))
        · exact h m (by simp [hm])
    · simp only [del_username, hc, Bool.false_eq_true, if_false] at hm
      rcases List.mem_cons.mp hm with hm | hm
      · rw [hm]
        exact h n (by simp)
      · exact ih (fun q hq => h q (by simp [hq])) m hm

lemma dictInsert_notMem (d : Tree) (k : String) (v : List String)
    (h : ∀ p ∈ d, p.1 ≠ k) : dictInsert d k v = d ++ [(k, v)] := by
  have hany : d.any (fun p => p.1 == k) = false := by
    rw [List.any_eq_false]
    intro p hp
    simp [h p hp]
  simp [dictInsert, hany]

lemma foldl_dictInsert (doc : Tree) : ∀ acc : Tree,
    doc.Pairwise (fun a b => a.1 ≠ b.1) →
    (∀ p ∈ doc, ∀ q ∈ acc, q.1 ≠ p.1) →
    doc.foldl (fun d n => dictInsert d n.1 n.2) acc = acc ++ doc := by
  induction doc with
  | nil => intro acc _ _; simp
  | cons n doc ih =>
    intro acc hp hdisj
    rw [List.pairwise_cons] at hp
    rw [List.foldl_cons,
      dictInsert_notMem acc n.1 n.2 (fun q hq => hdisj n (by simp) q hq)]
    have hdisj2 : ∀ p ∈ doc, ∀ q ∈ acc ++ [(n.1, n.2)], q.1 ≠ p.1 := by
      intro p hp2 q hq
      rcases List.mem_append.mp hq with hq | hq
      · exact hdisj p (by simp [hp2]) q hq
      · rw [List.mem_singleton] at hq
        rw [hq]
        exact hp.1 p hp2
    rw [ih (acc ++ [(n.1, n.2)]) hp.2 hdisj2]
    simp

lemma keysNodup (t : Tree) (h : servicesCiUnique t) :
    t.Pairwise (fun a b => a.1 ≠ b.1) :=
  h.imp (fun hne he => hne (congrArg lower he))

lemma getTree_eq_self (t : Tree) (h : t.Pairwise (fun a b => a.1 ≠ b.1)) :
    get_tree t = t := by
  rw [get_tree, foldl_dictInsert t [] h (by simp)]
  simp

lemma addUsers_cons (t : Tree) (s u : String) (us : List String) :
    addUsers t s (u :: us) = addUsers (add_username t s u) s us := rfl

lemma add_username_skip (n : String × List String) (t : Tree) (s u : String)
    (h : ciEq s n.1 = false) :
    add_username (n :: t) s u = n :: add_username t s u := by
  simp [add_username, h]

lemma addUsers_skip (n : String × List String) (s : String) (us : List String)
    (h : ciEq s n.1 = false) :
    ∀ t : Tree, addUsers (n :: t) s us = n :: addUsers t s us := by
  induction us with
  | nil => intro t; rfl
  | cons u us ih =>
    intro t
    rw [addUsers_cons, add_username_skip n t s u h, ih (add_username t s u),
      addUsers_cons]

lemma addUsers_head (s : String) (t : Tree) (us : List String) :
    ∀ vs : List String, ciNodup (vs ++ us) →
    addUsers ((s, vs) :: t) s us = (s, vs ++ us) :: t := by
  induction us with
  | nil => intro vs _; simp [addUsers]
  | cons u us ih =>
    intro vs h
    rw [addUsers_cons]
    have hany : vs.any (fun x => ciEq u x) = false := by
      rw [List.any_eq_false]
      intro x hx
      have hrel := (List.pairwise_append.mp h).2.2 x hx u (by simp)
      rw [Bool.not_eq_true, ciEq_false_iff]
      exact fun hcon => hrel hcon.symm
    have hadd : add_username ((s, vs) :: t) s u = (s, vs ++ [u]) :: t := by
      simp [add_username, ciEq_refl, hany]
    rw [hadd, ih (vs ++ [u]) (by rwa [List.append_cons] at h)]
    simp

lemma set_tree_cons_doc (t : Tree) (p : String × List String) (doc : Tree) :
    set_tree t (p :: doc) = set_tree (addUsers t p.1 p.2) doc := rfl

lemma set_tree_skip (n : String × List String) (doc : Tree) :
    ∀ t : Tree, (∀ p ∈ doc, ciEq p.1 n.1 = false) →
    set_tree (n :: t) doc = n :: set_tree t doc := by
  induction doc with
  | nil => intro t _; rfl
  | cons p doc ih =>
    intro t h
    rw [set_tree_cons_doc, addUsers_skip n p.1 p.2 (h p (by simp)),
      ih (addUsers t p.1 p.2) (fun q hq => h q (by simp [hq])),
      set_tree_cons_doc]

lemma set_tree_id (T : Tree) (h : WF T) : set_tree [] T = T := by
  induction T with
  | nil => rfl
  | cons n T ih =>
    obtain ⟨hs, hu, hne⟩ := h
    rw [servicesCiUnique, List.pairwise_cons] at hs
    rcases n with ⟨s, us⟩
    cases us with
    | nil => exact absurd rfl (hne (s, []) (by simp))
    | cons u us =>
      rw [set_tree_cons_doc]
      have h1 : addUsers [] s (u :: us) = [(s, u :: us)] := by
        rw [addUsers_cons]
        have h2 : add_username [] s u = [(s, [u])] := rfl
        rw [h2, addUsers_head s [] us [u] (hu (s, u :: us) (by simp))]
        simp
      rw [h1, set_tree_skip (s, u :: us) T]
      · rw [ih ⟨hs.2, fun q hq => hu q (by simp [hq]),
          fun q hq => hne q (by simp [hq])⟩]
      · intro p hp
        rw [ciEq_false_iff]
        exact fun hcon => hs.1 p hp hcon.symm

lemma show_info_apply (st : AppState) (msg : String) (h : msg.length > 0) :
    show_info st msg = { st with notification := "[INFO]: " ++ msg } := by
  rw [show_info, if_pos h]

lemma show_warning_apply (st : AppState) (msg : String) (h : msg.length > 0) :
    show_warning st msg = { st with notification := "[WARNING]: " ++ msg } := by
  rw [show_warning, if_pos h]

example : add_username [] "Mail" "bob" = [("Mail", ["bob"])] := by decide

example : add_username (add_username [] "Mail" "bob") "mail" "BOB"
    = [("Mail", ["bob"])] := by decide

example : del_username [("svc", ["u1"])] "svc" "u1" = [] := by decide

example : get_tree [("a", ["x", "y"]), ("b", ["z"])]
    = [("a", ["x", "y"]), ("b", ["z"])] := by decide

example : set_tree [] [("a", ["x", "y"]), ("b", ["z"])]
    = [("a", ["x", "y"]), ("b", ["z"])] := by decide

example : memTree [("a", ["x"])] "A" "X" = true := by decide

lemma dictGet_dictSet {V : Type} (d : List (String × V)) (k : String) (v : V) :
    dictGet (dictSet d k v) k = some v := by
  induction d with
  | nil => simp [dictSet, dictGet]
  | cons p d ih =>
    by_cases h : (p.1 == k) = true
    · simp [dictSet, dictGet, h]
    · simp [dictSet, dictGet, h, ih]

/-- Claim C1: from a state whose service, username and password are all
non-empty, `save()` followed by `fetch()` with the same service and
username leaves the password field and the clipboard equal to the saved
password, with the `(service, username)` entry present in the Tree
Projection. -/
theorem save_then_fetch (st : AppState)
    (hs : st.service.length > 0) (hu : st.username.length > 0)
    (hp : st.password.length > 0) :
    (get_password (set_password st)).password = st.password ∧
    (get_password (set_password st)).clipboard = st.password ∧
    memTree (get_password (set_password st)).tree st.service st.username = true := by
  have hmsg1 : ("Password saved to keyring." : String).length > 0 := by decide
  have hmsg2 : ("Password retrieved from keyring." : String).length > 0 := by decide
  have hsave : set_password st =
      { st with
        keyring := krSet st.keyring st.service st.username st.password,
        tree := add_username st.tree st.service st.username,
        mirror := some (get_tree (add_username st.tree st.service st.username)),
        clipboard := st.password,
        notification := "[INFO]: Password saved to keyring." } := by
    rw [set_password, if_pos ⟨hs, hu, hp⟩]
    simp only [add_account, show_info_apply _ _ hmsg1]
    rfl
  rw [hsave]
  rw [get_password]
  simp only []
  rw [if_pos ⟨hs, hu⟩]
  rw [krGet_krSet]
  simp only [add_account, show_info_apply _ _ hmsg2]
  exact ⟨trivial, trivial, memTree_add _ st.service st.username⟩

/-- Witness for C1 at a concrete state (fields in order: service, username,
password, notification, clipboard, tree, keyring, mirror). -/
theorem save_then_fetch_witness :
    (get_password (set_password ⟨"svc", "u1", "p1", "", "", [], [], none⟩)).password = "p1" ∧
    (get_password (set_password ⟨"svc", "u1", "p1", "", "", [], [], none⟩)).clipboard = "p1" ∧
    memTree (get_password (set_password ⟨"svc", "u1", "p1", "", "", [], [], none⟩)).tree
      "svc" "u1" = true :=
  save_then_fetch _ (by decide) (by decide) (by decide)

/-- Claim C2: from a state with non-empty service and username, `delete()`
— whether the gateway delete succeeded or raised the not-found condition —
removes the `(service, username)` entry from the Tree Projection, rewrites
the mirror file with the full snapshot, and clears the service, username
and password fields. -/
theorem delete_cleanup (st : AppState)
    (hs : st.service.length > 0) (hu : st.username.length > 0)
    (hwf : servicesCiUnique st.tree) :
    (del_password st).service = "" ∧
    (del_password st).username = "" ∧
    (del_password st).password = "" ∧
    (del_password st).tree = del_username st.tree st.service st.username ∧
    memTree (del_password st).tree st.service st.username = false ∧
    (del_password st).mirror = some (get_tree (del_password st).tree) := by
  have hmsg1 : ("Password deleted from keyring." : String).length > 0 := by decide
  have hmsg2 : ("Password not found in keyring!" : String).length > 0 := by decide
  rw [del_password, if_pos ⟨hs, hu⟩]
  cases hk : krDel st.keyring st.service st.username with
  | some kr =>
    simp only [show_info_apply _ _ hmsg1, del_account]
    exact ⟨by trivial, by trivial, by trivial, by trivial,
      memTree_del _ _ _ hwf, by trivial⟩
  | none =>
    simp only [show_warning_apply _ _ hmsg2, del_account]
    exact ⟨by trivial, by trivial, by trivial, by trivial,
      memTree_del _ _ _ hwf, by trivial⟩

/-- Witness for C2 at a concrete state on the not-found path (empty
gateway). -/
theorem delete_cleanup_witness :
    (del_password ⟨"svc", "u1", "p", "", "", [("svc", ["u1"])], [], none⟩).service = "" ∧
    (del_password ⟨"svc", "u1", "p", "", "", [("svc", ["u1"])], [], none⟩).username = "" ∧
    (del_password ⟨"svc", "u1", "p", "", "", [("svc", ["u1"])], [], none⟩).password = "" ∧
    (del_password ⟨"svc", "u1", "p", "", "", [("svc", ["u1"])], [], none⟩).tree
      = del_username [("svc", ["u1"])] "svc" "u1" ∧
    memTree (del_password ⟨"svc", "u1", "p", "", "", [("svc", ["u1"])], [], none⟩).tree
      "svc" "u1" = false ∧
    (del_password ⟨"svc", "u1", "p", "", "", [("svc", ["u1"])], [], none⟩).mirror
      = some (get_tree (del_password ⟨"svc", "u1", "p", "", "", [("svc", ["u1"])], [], none⟩).tree) :=
  delete_cleanup _ (by decide) (by decide) (by decide)

/-- Counterexample to claim C3 as stated: in a state with an empty service
and the password field holding `"p1"`, `fetch()` does not leave the
password field unchanged — the source deletes `password` before checking
the preconditions, so the field ends up empty. -/
theorem fetch_guard_password_cleared :
    (get_password ⟨"", "u1", "p1", "", "", [], [], none⟩).password = "" ∧
    ¬((get_password ⟨"", "u1", "p1", "", "", [], [], none⟩).password = "p1") :=
  ⟨by decide, by decide⟩

/-- Claim C3 (amended): when service or username is empty, `fetch()` sets
the notification to the warning, clears the password field (this clearing
happens before the precondition check), and leaves everything else —
service, username, clipboard, Tree Projection, gateway, mirror file —
unchanged. -/
theorem fetch_guard (st : AppState)
    (h : st.service.length = 0 ∨ st.username.length = 0) :
    (get_password st).notification
      = "[WARNING]: " ++ "Service and username cannot be empty!" ∧
    (get_password st).password = "" ∧
    (get_password st).service = st.service ∧
    (get_password st).username = st.username ∧
    (get_password st).clipboard = st.clipboard ∧
    (get_password st).tree = st.tree ∧
    (get_password st).keyring = st.keyring ∧
    (get_password st).mirror = st.mirror := by
  have hneg : ¬(st.service.length > 0 ∧ st.username.length > 0) := by
    intro hc
    rcases hc with ⟨h1, h2⟩
    rcases h with h | h <;> omega
  rw [get_password]
  simp only []
  rw [if_neg hneg, show_warning_apply _ _ (by decide)]
  exact ⟨rfl, rfl, rfl, rfl, rfl, rfl, rfl, rfl⟩

/-- Witness for the amended C3 at a concrete state with an empty
service. -/
theorem fetch_guard_witness :
    (get_password ⟨"", "u1", "p1", "", "cb", [("a", ["b"])], [], none⟩).notification
      = "[WARNING]: " ++ "Service and username cannot be empty!" ∧
    (get_password ⟨"", "u1", "p1", "", "cb", [("a", ["b"])], [], none⟩).password = "" ∧
    (get_password ⟨"", "u1", "p1", "", "cb", [("a", ["b"])], [], none⟩).service = "" ∧
    (get_password ⟨"", "u1", "p1", "", "cb", [("a", ["b"])], [], none⟩).username = "u1" ∧
    (get_password ⟨"", "u1", "p1", "", "cb", [("a", ["b"])], [], none⟩).clipboard = "cb" ∧
    (get_password ⟨"", "u1", "p1", "", "cb", [("a", ["b"])], [], none⟩).tree = [("a", ["b"])] ∧
    (get_password ⟨"", "u1", "p1", "", "cb", [("a", ["b"])], [], none⟩).keyring = [] ∧
    (get_password ⟨"", "u1", "p1", "", "cb", [("a", ["b"])], [], none⟩).mirror = none :=
  fetch_guard _ (Or.inl (by decide))

/-- Claim C4: with non-empty service and username and the gateway holding
no secret for them, `fetch()` removes the entry from the Tree Projection
(pruning an emptied service node), overwrites the mirror file with the
full `export_tree()` snapshot of the resulting tree, leaves the password
field empty, and sets the not-found warning. -/
theorem fetch_not_found (st : AppState)
    (hs : st.service.length > 0) (hu : st.username.length > 0)
    (hk : krGet st.keyring st.service st.username = none)
    (hwf : servicesCiUnique st.tree) :
    (get_password st).tree = del_username st.tree st.service st.username ∧
    memTree (get_password st).tree st.service st.username = false ∧
    (get_password st).mirror = some (get_tree (get_password st).tree) ∧
    (get_password st).password = "" ∧
    (get_password st).notification = "[WARNING]: " ++ "Password not found!" := by
  have hmsg : ("Password not found!" : String).length > 0 := by decide
  rw [get_password]
  simp only []
  rw [if_pos ⟨hs, hu⟩, hk]
  simp only [show_warning_apply _ _ hmsg, del_account]
  exact ⟨by trivial, memTree_del _ _ _ hwf, by trivial, by trivial, by trivial⟩

/-- Witness for C4 at the spec's concrete instance: tree `svc -> [u1]`,
empty gateway; the tree ends empty and the mirror file holds the empty
document. -/
theorem fetch_not_found_witness :
    ((get_password ⟨"svc", "u1", "", "", "", [("svc", ["u1"])], [], some [("svc", ["u1"])]⟩).tree
        = del_username [("svc", ["u1"])] "svc" "u1" ∧
      memTree (get_password ⟨"svc", "u1", "", "", "", [("svc", ["u1"])], [], some [("svc", ["u1"])]⟩).tree
        "svc" "u1" = false ∧
      (get_password ⟨"svc", "u1", "", "", "", [("svc", ["u1"])], [], some [("svc", ["u1"])]⟩).mirror
        = some (get_tree (get_password ⟨"svc", "u1", "", "", "", [("svc", ["u1"])], [], some [("svc", ["u1"])]⟩).tree) ∧
      (get_password ⟨"svc", "u1", "", "", "", [("svc", ["u1"])], [], some [("svc", ["u1"])]⟩).password = "" ∧
      (get_password ⟨"svc", "u1", "", "", "", [("svc", ["u1"])], [], some [("svc", ["u1"])]⟩).notification
        = "[WARNING]: " ++ "Password not found!") ∧
    (get_password ⟨"svc", "u1", "", "", "", [("svc", ["u1"])], [], some [("svc", ["u1"])]⟩).tree = [] ∧
    (get_password ⟨"svc", "u1", "", "", "", [("svc", ["u1"])], [], some [("svc", ["u1"])]⟩).mirror
      = some [] :=
  ⟨fetch_not_found _ (by decide) (by decide) (by decide) (by decide), by decide, by decide⟩

/-- Claim C5: for any Tree Projection satisfying the data-model
invariants, importing the exported Mirror Document into an empty
projection reconstructs a projection with the same export. -/
theorem tree_round_trip (T : Tree) (h : WF T) :
    get_tree (set_tree [] (get_tree T)) = get_tree T := by
  have hk := keysNodup T h.1
  rw [getTree_eq_self T hk, set_tree_id T h, getTree_eq_self T hk]

/-- Witness for C5 at a concrete two-service projection. -/
theorem tree_round_trip_witness :
    WF [("Mail", ["bob", "Alice"]), ("svc", ["u1"])] ∧
    get_tree (set_tree [] (get_tree [("Mail", ["bob", "Alice"]), ("svc", ["u1"])]))
      = get_tree [("Mail", ["bob", "Alice"]), ("svc", ["u1"])] :=
  ⟨by decide, tree_round_trip _ (by decide)⟩

/-- Claim C6: no tree operation creates a childless service node —
`add_username` preserves the invariant and `del_username` prunes a service
node whose last child was removed; in particular deleting the only
username of the only service leaves the empty tree. -/
theorem no_empty_service_preserved :
    (∀ t s u, noEmptyService t → noEmptyService (add_username t s u)) ∧
    (∀ t s u, noEmptyService t → noEmptyService (del_username t s u)) ∧
    del_username [("svc", ["u1"])] "svc" "u1" = [] :=
  ⟨noEmptyService_add, noEmptyService_del, by decide⟩

/-- Witness for C6 at a concrete tree. -/
theorem no_empty_service_preserved_witness :
    noEmptyService [("a", ["b"])] ∧
    noEmptyService (add_username [("a", ["b"])] "c" "d") ∧
    noEmptyService (del_username [("a", ["b"])] "c" "b") :=
  ⟨by decide, no_empty_service_preserved.1 [("a", ["b"])] "c" "d" (by decide),
    no_empty_service_preserved.2.1 [("a", ["b"])] "c" "b" (by decide)⟩

/-- Claim C7: `add_username` and `del_username` preserve case-insensitive
uniqueness of service labels at the top level and of username labels
within each service; in particular adding `Mail/bob` and then `mail/BOB`
yields exactly one service node with one username child, keeping the
first-inserted casing. -/
theorem ci_uniqueness_preserved :
    (∀ t s u, servicesCiUnique t → servicesCiUnique (add_username t s u)) ∧
    (∀ t s u, usersCiUnique t → usersCiUnique (add_username t s u)) ∧
    (∀ t s u, servicesCiUnique t → servicesCiUnique (del_username t s u)) ∧
    (∀ t s u, usersCiUnique t → usersCiUnique (del_username t s u)) ∧
    add_username (add_username [] "Mail" "bob") "mail" "BOB" = [("Mail", ["bob"])] :=
  ⟨servicesCiUnique_add, usersCiUnique_add, servicesCiUnique_del,
    usersCiUnique_del, by decide⟩

/-- Witness for C7 at a concrete tree. -/
theorem ci_uniqueness_preserved_witness :
    servicesCiUnique [("a", ["b"])] ∧
    servicesCiUnique (add_username [("a", ["b"])] "A" "c") :=
  ⟨by decide, ci_uniqueness_preserved.1 [("a", ["b"])] "A" "c" (by decide)⟩

/-- Claim C8: when service, username or password is empty, `save()` leaves
the gateway, the Tree Projection, the mirror file and all the fields
unchanged, and sets the notification to the warning with the exact message
string. -/
theorem save_guard (st : AppState)
    (h : st.service.length = 0 ∨ st.username.length = 0 ∨ st.password.length = 0) :
    (set_password st).keyring = st.keyring ∧
    (set_password st).tree = st.tree ∧
    (set_password st).mirror = st.mirror ∧
    (set_password st).service = st.service ∧
    (set_password st).username = st.username ∧
    (set_password st).password = st.password ∧
    (set_password st).clipboard = st.clipboard ∧
    (set_password st).notification
      = "[WARNING]: " ++ "Service, username and password cannot be empty!" := by
  have hneg : ¬(st.service.length > 0 ∧ st.username.length > 0 ∧ st.password.length > 0) := by
    intro hc
    rcases hc with ⟨h1, h2, h3⟩
    rcases h with h | h | h <;> omega
  rw [set_password, if_neg hneg, show_warning_apply _ _ (by decide)]
  exact ⟨rfl, rfl, rfl, rfl, rfl, rfl, rfl, rfl⟩

/-- Witness for C8 at a concrete state with an empty username. -/
theorem save_guard_witness :
    (set_password ⟨"svc", "", "p1", "", "c", [("a", ["b"])], [(("x", "y"), "z")], none⟩).keyring
      = [(("x", "y"), "z")] ∧
    (set_password ⟨"svc", "", "p1", "", "c", [("a", ["b"])], [(("x", "y"), "z")], none⟩).tree
      = [("a", ["b"])] ∧
    (set_password ⟨"svc", "", "p1", "", "c", [("a", ["b"])], [(("x", "y"), "z")], none⟩).mirror
      = none ∧
    (set_password ⟨"svc", "", "p1", "", "c", [("a", ["b"])], [(("x", "y"), "z")], none⟩).service
      = "svc" ∧
    (set_password ⟨"svc", "", "p1", "", "c", [("a", ["b"])], [(("x", "y"), "z")], none⟩).username
      = "" ∧
    (set_password ⟨"svc", "", "p1", "", "c", [("a", ["b"])], [(("x", "y"), "z")], none⟩).password
      = "p1" ∧
    (set_password ⟨"svc", "", "p1", "", "c", [("a", ["b"])], [(("x", "y"), "z")], none⟩).clipboard
      = "c" ∧
    (set_password ⟨"svc", "", "p1", "", "c", [("a", ["b"])], [(("x", "y"), "z")], none⟩).notification
      = "[WARNING]: " ++ "Service, username and password cannot be empty!" :=
  save_guard _ (Or.inr (Or.inl (by decide)))

/-- Claim C9: the `__shared__` aliasing makes the Shared Application State
a process-wide singleton — initialization points a holder's attribute
dictionary at the class-level shared one; a later holder constructed with
fresh (empty) fields leaves the canonical shared contents intact; and once
two holders are initialized, an attribute written through either is read
back through the other. -/
theorem shared_state_singleton {V : Type} (σ : PyState V) (h1 h2 hNew : Nat)
    (k : String) (v : V)
    (i1 : σ.ptr h1 = σ.shared) (i2 : σ.ptr h2 = σ.shared)
    (hfresh : σ.heap (σ.ptr hNew) = []) :
    (initHolder σ hNew).ptr hNew = σ.shared ∧
    (initHolder σ hNew).heap σ.shared = σ.heap σ.shared ∧
    readAttr (writeAttr σ h1 k v) h2 k = some v := by
  refine ⟨?_, ?_, ?_⟩
  · simp [initHolder, upd]
  · simp [initHolder, upd, hfresh, dictMerge]
  · rw [readAttr, writeAttr]
    simp only [i1, i2]
    simp [upd, dictGet_dictSet]

/-- Witness for C9 on a concrete two-holder heap. -/
theorem shared_state_singleton_witness :
    (initHolder ({ heap := fun _ => [], shared := 0, ptr := fun _ => 0 } : PyState String) 1).ptr 1
      = 0 ∧
    (initHolder ({ heap := fun _ => [], shared := 0, ptr := fun _ => 0 } : PyState String) 1).heap 0
      = ([] : List (String × String)) ∧
    readAttr
      (writeAttr ({ heap := fun _ => [], shared := 0, ptr := fun _ => 0 } : PyState String)
        0 "service" "svc")
      0 "service" = some "svc" :=
  shared_state_singleton _ 0 0 1 "service" "svc" rfl rfl rfl

/-- Claim C10: when `delete()` runs with non-empty service and username and
the gateway delete succeeds, the notification carries the info message
about the deletion — set before the unconditional cleanup, which then
clears the fields without touching the notification. -/
theorem delete_success_message (st : AppState) (kr : Keyring)
    (hs : st.service.length > 0) (hu : st.username.length > 0)
    (hk : krDel st.keyring st.service st.username = some kr) :
    (del_password st).notification = "[INFO]: " ++ "Password deleted from keyring." ∧
    (del_password st).service = "" ∧
    (del_password st).username = "" ∧
    (del_password st).password = "" ∧
    (del_password st).keyring = kr := by
  have hmsg : ("Password deleted from keyring." : String).length > 0 := by decide
  rw [del_password, if_pos ⟨hs, hu⟩, hk]
  simp only [show_info_apply _ _ hmsg, del_account]
  exact ⟨by trivial, by trivial, by trivial, by trivial, by trivial⟩

/-- Witness for C10 at a concrete state whose gateway holds the secret. -/
theorem delete_success_message_witness :
    (del_password ⟨"svc", "u1", "p", "", "", [("svc", ["u1"])], [(("svc", "u1"), "p")], none⟩).notification
      = "[INFO]: " ++ "Password deleted from keyring." ∧
    (del_password ⟨"svc", "u1", "p", "", "", [("svc", ["u1"])], [(("svc", "u1"), "p")], none⟩).service
      = "" ∧
    (del_password ⟨"svc", "u1", "p", "", "", [("svc", ["u1"])], [(("svc", "u1"), "p")], none⟩).username
      = "" ∧
    (del_password ⟨"svc", "u1", "p", "", "", [("svc", ["u1"])], [(("svc", "u1"), "p")], none⟩).password
      = "" ∧
    (del_password ⟨"svc", "u1", "p", "", "", [("svc", ["u1"])], [(("svc", "u1"), "p")], none⟩).keyring
      = [] :=
  delete_success_message _ [] (by decide) (by decide) (by decide)

end KeyVault
